import Mathlib

/-!
# Disk Maid — verification of the scanning / sorting core

A shallow embedding of the scanning, filtering, sorting and aggregation
core of `src/V2.5(perfect).rs`, together with theorems settling the
frozen claims about it.

Modelling conventions:
* The filesystem is modelled as an inductive tree value (`FsEntry`): a
  scan of the Rust code reads the disk through `fs::read_dir` and
  `fs::metadata`; here the outcomes of those OS calls are part of the
  tree (`readable := false` models a directory whose `read_dir` fails,
  `badMeta` models a child whose `fs::metadata` fails, `iterErr` models
  an `Err` item produced by the `ReadDir` iterator).
* Machine integers (`u64` sizes and epoch seconds) are modelled as `Nat`.
  The `modified` field already holds the value after the source's
  `unwrap_or(UNIX_EPOCH) … unwrap_or_default().as_secs()` defaulting,
  i.e. `0` when the OS cannot supply a timestamp.
* Paths are strings; a child's path is the parent path joined with `/`
  (the platform separator). Rust compares paths bytewise on UTF-8,
  which coincides with the code-point lexicographic order used here.
-/

namespace DiskMaid

/-- The record type of the source: `struct FileInfo { path, size, is_dir, modified }`. -/
structure FileInfo where
  path : String
  size : Nat
  is_dir : Bool
  modified : Nat
deriving DecidableEq, Repr

/-- A filesystem object as seen by the scanner.  `dir` carries a
`readable` flag: `false` models `fs::read_dir` failing on it.
`badMeta` is a child whose `fs::metadata` call fails, `iterErr` an
`Err` item yielded by the `ReadDir` iterator (both are skipped by the
source's `if let Ok(entry)` / `match fs::metadata`). -/
inductive FsEntry where
  | file (name : String) (size : Nat) (modified : Nat) : FsEntry
  | dir (name : String) (modified : Nat) (readable : Bool) (children : List FsEntry) : FsEntry
  | badMeta (name : String) : FsEntry
  | iterErr : FsEntry

/-- Model of `fs::read_dir` on an entry: succeeds with the children exactly for a
readable directory (a file root, or a vanished/unreadable root, makes
`read_dir` fail — the `Err(_) => return Ok(())` arm of the source). -/
def readDirListing : FsEntry → Option (List FsEntry)
  | .dir _ _ true children => some children
  | _ => none

/-- ASCII lower-casing of one character, as done bytewise by Rust's
`eq_ignore_ascii_case`. -/
def asciiLower (c : Char) : Char :=
  if 'A' ≤ c ∧ c ≤ 'Z' then Char.ofNat (c.toNat + 32) else c

/-- Rust `str::eq_ignore_ascii_case`: equality after ASCII lower-casing. -/
def eqIgnoreAsciiCase (a b : String) : Bool :=
  a.toList.map asciiLower == b.toList.map asciiLower

/-- Does the character list start with `*.`?  (Rust `str::starts_with("*.")`.) -/
def startsWithStarDot : List Char → Bool
  | '*' :: '.' :: _ => true
  | _ => false

/-- Rust `str::trim_start_matches("*.")`: repeatedly removes the prefix `*.`. -/
def trimStarDot : List Char → List Char
  | '*' :: '.' :: rest => trimStarDot rest
  | l => l

/-- The characters after the last `.` of a list, if the list contains a `.`. -/
def extCore : List Char → Option (List Char)
  | [] => none
  | c :: rest =>
    match extCore rest with
    | some e => some e
    | none => if c = '.' then some rest else none

/-- Rust `Path::extension()` on a file name: `none` when there is no `.`
past the first character (so `.bashrc` and `report` have no extension,
and `..` is special-cased), otherwise the portion after the last `.`
(so `foo.` has extension `""` and `a.b.c` has extension `c`). -/
def extensionOf (name : String) : Option String :=
  if name = ".." then none
  else
    match name.toList with
    | [] => none
    | _ :: rest => (extCore rest).map fun e => String.mk e

/-- The name-filter decision of `scan_recursive` (source lines 168–178):
`*` and `*.*` match everything; a pattern starting with `*.` is
compared, after `trim_start_matches("*.")`, ASCII-case-insensitively
against the file's extension (no extension never matches); any other
pattern matches everything. -/
def filterMatches (filter : String) (fileName : String) : Bool :=
  if filter = "*" || filter = "*.*" then true
  else if startsWithStarDot filter.toList then
    match extensionOf fileName with
    | some e => eqIgnoreAsciiCase e (String.mk (trimStarDot filter.toList))
    | none => false
  else true

/-- The filter semantics as worded by claim C5: a pattern of the form
`*.<ext>` — read as `*.` followed by the remainder `<ext>` — matches
exactly the files whose extension equals `<ext>` ASCII-case-insensitively.
This differs from the source only in stripping the leading `*.` once
instead of repeatedly. -/
def specMatches (filter : String) (fileName : String) : Bool :=
  if filter = "*" || filter = "*.*" then true
  else if startsWithStarDot filter.toList then
    match extensionOf fileName with
    | some e => eqIgnoreAsciiCase e (String.mk (filter.toList.drop 2))
    | none => false
  else true

mutual

/-- Embedding of `scan_recursive` of the source (lines 132–192): guards on depth and
on the accumulated count, reads the directory (an unreadable one yields
the accumulator unchanged — `Err(_) => return Ok(())`), then walks the
children.  The source's `&mut Vec<FileInfo>` accumulator is threaded
explicitly; every `return` site of the source is `Ok(())`, so the
(never-used) error channel of its `Result<(), String>` is dropped here
and restored in `scan_directory` below. -/
def scanRecursive (dir : FsEntry) (dirPath : String) (filter : String)
    (files : List FileInfo) (depth : Nat) (maxDepth : Nat) : List FileInfo :=
  if depth > maxDepth then files
  else if files.length > 10000 then files
  else
    match dir with
    | .dir _ _ true children => scanEntries children dirPath filter files depth maxDepth
    | _ => files
termination_by (sizeOf dir, 0)

/-- The `for entry in entries` loop of `scan_recursive`. -/
def scanEntries (entries : List FsEntry) (dirPath : String) (filter : String)
    (files : List FileInfo) (depth : Nat) (maxDepth : Nat) : List FileInfo :=
  match entries with
  | [] => files
  | e :: rest =>
    scanEntries rest dirPath filter (scanChild e dirPath filter files depth maxDepth) depth maxDepth
termination_by (sizeOf entries, 1)

/-- The body of the `for` loop for one child: iterator errors and
metadata failures are skipped (`if let Ok(entry)` / `Err(_) => continue`);
a directory child is recorded unconditionally with `size = 0` and
`is_dir = true` and then descended into at `depth + 1`; a file child is
recorded iff the name filter matches. -/
def scanChild (e : FsEntry) (dirPath : String) (filter : String)
    (files : List FileInfo) (depth : Nat) (maxDepth : Nat) : List FileInfo :=
  match e with
  | .iterErr => files
  | .badMeta _ => files
  | .file name size modified =>
    if filterMatches filter name then
      files ++ [⟨dirPath ++ "/" ++ name, size, false, modified⟩]
    else files
  | .dir name modified readable children =>
    scanRecursive (.dir name modified readable children) (dirPath ++ "/" ++ name) filter
      (files ++ [⟨dirPath ++ "/" ++ name, 0, true, modified⟩]) (depth + 1) maxDepth
termination_by (sizeOf e, 1)

end

/-- Embedding of `scan_directory` (source lines 129–196): runs `scan_recursive` from
the root at depth `0` with `max_depth = 5` and an empty record list;
since every return of `scan_recursive` is `Ok(())`, the `?` never
propagates an error and the result is always `Ok(files)`. -/
def scan_directory (root : FsEntry) (rootPath : String) (filter : String) :
    Except String (List FileInfo) :=
  Except.ok (scanRecursive root rootPath filter [] 0 5)

/-- The six sort methods of the source (`enum SortMethod`). -/
inductive SortMethod where
  | NameAZ | NameZA | SizeLargest | SizeSmallest | Newest | Oldest
deriving DecidableEq, Repr

/-- Code-point lexicographic comparison of character lists; Rust's
`Ord` on `String` compares UTF-8 bytes, which orders valid strings
exactly by code points. -/
def lexCmp : List Char → List Char → Ordering
  | [], [] => .eq
  | [], _ :: _ => .lt
  | _ :: _, [] => .gt
  | a :: as, b :: bs =>
    match compare a.toNat b.toNat with
    | .eq => lexCmp as bs
    | o => o

/-- The ASCII restriction of Unicode lowercasing: Rust's
`str::to_lowercase()` maps every ASCII character exactly this way (and
only non-ASCII characters differently), so on ASCII strings — such as
the claim's `B/x` / `a/y` example — this computes precisely what the
program computes. -/
def lowerChars (s : String) : List Char := s.toList.map asciiLower

/-- The comparator passed to `sort_by` in `sort_files` (source lines
199–206), one arm per `SortMethod`.  The name arms call the standard
library's `str::to_lowercase()` — full Unicode case conversion, code
that lives outside this repository — so the lowercasing map is taken as
a parameter `low` (the lowered string, as its character list): every
ordering fact proved below holds for all `low`, hence in particular for
the library's actual Unicode mapping. -/
def cmpFiles (low : String → List Char) (method : SortMethod) (a b : FileInfo) : Ordering :=
  match method with
  | .NameAZ => lexCmp (low a.path) (low b.path)
  | .NameZA => lexCmp (low b.path) (low a.path)
  | .SizeLargest => compare b.size a.size
  | .SizeSmallest => compare a.size b.size
  | .Newest => compare b.modified a.modified
  | .Oldest => compare a.modified b.modified

/-- Embedding of `sort_files` (source lines 198–207), parameterised by
the library lowercasing map `low` as in `cmpFiles`: `Vec::sort_by` is a
stable comparator sort, modelled by `List.mergeSort` with the `le`
predicate "the comparator does not answer `Greater`" (`mergeSort` is
likewise stable, and produces a list pairwise-ordered by that
predicate). -/
def sort_files (low : String → List Char) (files : List FileInfo) (method : SortMethod) :
    List FileInfo :=
  files.mergeSort fun a b => cmpFiles low method a b != Ordering.gt

/-- The `file_count` of the scan-completion handler (source line 465):
`files.iter().filter(|f| !f.is_dir).count()`. -/
def file_count (files : List FileInfo) : Nat :=
  (files.filter fun f => !f.is_dir).length

/-- The `dir_count` of the scan-completion handler (source line 466):
`files.iter().filter(|f| f.is_dir).count()`. -/
def dir_count (files : List FileInfo) : Nat :=
  (files.filter fun f => f.is_dir).length

/-- The `total_size` of the scan-completion handler (source line 467):
`files.iter().filter(|f| !f.is_dir).map(|f| f.size).sum()` (the `u64`
sum modelled in `Nat`). -/
def total_size (files : List FileInfo) : Nat :=
  ((files.filter fun f => !f.is_dir).map FileInfo.size).sum

/-- The `Message::FileDeleted(Ok(path))` handler (source lines 570–576):
`position(|x| x.path == path)` followed by `remove(index)` — remove the
first record whose path equals the deleted path, if any. -/
def fileDeleted (files : List FileInfo) (path : String) : List FileInfo :=
  match files.findIdx? fun x => x.path == path with
  | some i => files.eraseIdx i
  | none => files

/-! ## Basic facts about the scanner's guards -/

/-- A recursive call entered with `depth > maxDepth` adds nothing. -/
theorem scanRecursive_depth_stop (dir : FsEntry) (p f : String) (files : List FileInfo)
    (depth maxDepth : Nat) (h : depth > maxDepth) :
    scanRecursive dir p f files depth maxDepth = files := by
  rw [scanRecursive.eq_def]
  simp [h]

/-- A recursive call entered with more than 10000 accumulated records adds nothing. -/
theorem scanRecursive_count_stop (dir : FsEntry) (p f : String) (files : List FileInfo)
    (depth maxDepth : Nat) (h : files.length > 10000) :
    scanRecursive dir p f files depth maxDepth = files := by
  rw [scanRecursive.eq_def]
  split
  · rfl
  · simp [h]

/-- A root on which `read_dir` fails (a file, or an unreadable/vanished
directory) contributes nothing: the `Err(_) => return Ok(())` arm. -/
theorem scanRecursive_unreadable (root : FsEntry) (p f : String) (files : List FileInfo)
    (depth maxDepth : Nat) (h : readDirListing root = none) :
    scanRecursive root p f files depth maxDepth = files := by
  rw [scanRecursive.eq_def]
  cases root with
  | dir n m readable ch =>
    cases readable with
    | true => simp [readDirListing] at h
    | false => split <;> simp
  | file n s m => split <;> simp
  | badMeta n => split <;> simp
  | iterErr => split <;> simp

/-! ## C1 / C2 — the scan's error behaviour -/

/-- C1 counterexample: the claim says a scan whose root cannot be
opened/listed fails with the error variant and returns no record list;
on the code, a root on which `read_dir` fails (here an unreadable
directory) makes `scan_directory` return `Ok` with the empty list, so
the scan never fails. -/
theorem C1_counterexample :
    readDirListing (FsEntry.dir "root" 0 false []) = none ∧
    scan_directory (FsEntry.dir "root" 0 false []) "/root" "*" = Except.ok [] := by
  constructor
  · rfl
  · simp [scan_directory, scanRecursive]

/-- C1 (amended): the scan operation never fails — even when the root
itself cannot be opened/listed, `scan_directory` returns the `Ok`
variant, with an empty record list; no condition at all makes the whole
scan return the error variant. -/
theorem C1_amended_scan_never_fails (root : FsEntry) (rootPath filter : String)
    (h : readDirListing root = none) :
    scan_directory root rootPath filter = Except.ok [] := by
  unfold scan_directory
  rw [scanRecursive_unreadable root rootPath filter [] 0 5 h]

/-- C1 (amended) witness: a concrete file root cannot be listed, and the
scan on it returns `Ok []`. -/
theorem C1_amended_witness :
    scan_directory (FsEntry.file "root" 3 7) "/root" "*" = Except.ok [] :=
  C1_amended_scan_never_fails (FsEntry.file "root" 3 7) "/root" "*" rfl

/-- C2: `scan_directory` is total and always returns the `Ok` variant
(totality is by construction of the embedding; every return site of the
source's `scan_recursive` is `Ok(())`); in particular a root that
cannot be read as a directory yields `Ok` with the empty record list. -/
theorem C2_scan_always_ok (root : FsEntry) (rootPath filter : String) :
    (∃ l, scan_directory root rootPath filter = Except.ok l) ∧
    (readDirListing root = none → scan_directory root rootPath filter = Except.ok []) := by
  refine ⟨⟨_, rfl⟩, fun h => ?_⟩
  unfold scan_directory
  rw [scanRecursive_unreadable root rootPath filter [] 0 5 h]

/-- C2 witness: at a concrete unreadable root both conjuncts evaluate. -/
theorem C2_witness :
    scan_directory (FsEntry.dir "r" 0 false []) "/r" "*.txt" = Except.ok [] :=
  (C2_scan_always_ok (FsEntry.dir "r" 0 false []) "/r" "*.txt").2 rfl

/-! ## C9 — per-entry failures are absorbed -/

/-- C9: per-entry failures never abort the scan: a child whose metadata
retrieval fails (and likewise an `Err` item of the directory iterator)
is skipped and enumeration continues with its siblings; a subdirectory
whose listing fails contributes no child records and the recursion
below it ends silently; the overall scan still returns `Ok` — shown in
general and on a concrete tree where an unreadable subdirectory still
has its own record while its contents are absent and its sibling is
scanned. -/
theorem C9_per_entry_failures_absorbed :
    (∀ (n : String) rest p f files d md,
        scanEntries (FsEntry.badMeta n :: rest) p f files d md
          = scanEntries rest p f files d md) ∧
    (∀ rest p f files d md,
        scanEntries (FsEntry.iterErr :: rest) p f files d md
          = scanEntries rest p f files d md) ∧
    (∀ (n : String) m ch p f files d md,
        scanRecursive (FsEntry.dir n m false ch) p f files d md = files) ∧
    (∀ root p f, ∃ l, scan_directory root p f = Except.ok l) ∧
    scan_directory
        (FsEntry.dir "r" 0 true
          [FsEntry.dir "u" 3 false [FsEntry.file "x" 9 9], FsEntry.file "a" 5 7]) "/r" "*"
      = Except.ok [⟨"/r/u", 0, true, 3⟩, ⟨"/r/a", 5, false, 7⟩] := by
  refine ⟨?_, ?_, ?_, ?_, ?_⟩
  · intro n rest p f files d md
    rw [scanEntries]
    simp [scanChild]
  · intro rest p f files d md
    rw [scanEntries]
    simp [scanChild]
  · intro n m ch p f files d md
    exact scanRecursive_unreadable _ p f files d md rfl
  · intro root p f
    exact ⟨_, rfl⟩
  · simp [scan_directory, scanRecursive, scanEntries, scanChild, filterMatches]

/-! ## C3 — the 10000-record ceiling -/

/-- Enumerating a directory containing `n` copies of one matching file
appends `n` records: the loop body never re-checks the record count. -/
theorem scanEntries_replicate_files (n : Nat) (name p : String) (sz m : Nat)
    (files : List FileInfo) (d md : Nat) :
    scanEntries (List.replicate n (FsEntry.file name sz m)) p "*" files d md
      = files ++ List.replicate n ⟨p ++ "/" ++ name, sz, false, m⟩ := by
  induction n generalizing files with
  | zero => rw [List.replicate, scanEntries]; simp
  | succ k ih =>
    rw [List.replicate, scanEntries, ih]
    simp [scanChild, filterMatches, List.replicate_succ]

/-- C3 counterexample: a root directory with 10002 matching children
yields 10002 records — more than the claimed ceiling of 10000, because
the count is only checked on entry to a recursive call, never between
siblings. -/
theorem C3_counterexample :
    scan_directory (FsEntry.dir "r" 0 true (List.replicate 10002 (FsEntry.file "a" 1 0)))
        "/r" "*"
      = Except.ok (List.replicate 10002 ⟨"/r/a", 1, false, 0⟩) ∧
    10000 < (List.replicate 10002 (⟨"/r/a", 1, false, 0⟩ : FileInfo)).length := by
  constructor
  · unfold scan_directory
    rw [scanRecursive.eq_def]
    simp only [show ¬ (0 > 5) by decide, if_false, List.length_nil,
      show ¬ ((0 : Nat) > 10000) by decide]
    rw [scanEntries_replicate_files, List.nil_append]
    rfl
  · rw [List.length_replicate]
    decide

/-- C3 (amended): the 10000-record ceiling is enforced only on entry to
each recursive call: a call entered with more than 10000 accumulated
records enumerates no further children and returns what was collected
so far, but all children of a directory whose enumeration has already
begun are still processed, so the result can exceed 10000 records when
a single directory pushes the count past the ceiling. -/
theorem C3_amended_cap_checked_per_call (dir : FsEntry) (p f : String)
    (files : List FileInfo) (depth maxDepth : Nat) (h : files.length > 10000) :
    scanRecursive dir p f files depth maxDepth = files :=
  scanRecursive_count_stop dir p f files depth maxDepth h

/-- C3 (amended) witness: with 10001 records already collected, a call
on a further (readable, non-empty) directory adds nothing. -/
theorem C3_amended_witness :
    scanRecursive (FsEntry.dir "d" 0 true [FsEntry.file "a" 1 0]) "/d" "*"
        (List.replicate 10001 ⟨"/x", 0, false, 0⟩) 0 5
      = List.replicate 10001 ⟨"/x", 0, false, 0⟩ :=
  C3_amended_cap_checked_per_call _ _ _ _ _ _ (by norm_num)

/-! ## C4 — the depth cap -/

/-- C4 counterexample: in a chain of directories `c1/…/c6` below the
root, the directory `c6` — a filesystem object nested at depth 6
relative to the root — does produce a record (the call at depth 5 still
enumerates its parent's children), while the depth-7 file `c7` inside
it produces none.  The claim asserts a depth-6 object produces no
record. -/
theorem C4_counterexample :
    scan_directory
        (FsEntry.dir "r" 0 true
          [FsEntry.dir "c1" 1 true
            [FsEntry.dir "c2" 2 true
              [FsEntry.dir "c3" 3 true
                [FsEntry.dir "c4" 4 true
                  [FsEntry.dir "c5" 5 true
                    [FsEntry.dir "c6" 6 true
                      [FsEntry.file "c7" 7 7]]]]]]]) "/r" "*"
      = Except.ok
          [⟨"/r/c1", 0, true, 1⟩,
           ⟨"/r/c1/c2", 0, true, 2⟩,
           ⟨"/r/c1/c2/c3", 0, true, 3⟩,
           ⟨"/r/c1/c2/c3/c4", 0, true, 4⟩,
           ⟨"/r/c1/c2/c3/c4/c5", 0, true, 5⟩,
           ⟨"/r/c1/c2/c3/c4/c5/c6", 0, true, 6⟩] ∧
    (⟨"/r/c1/c2/c3/c4/c5/c6", 0, true, 6⟩ : FileInfo) ∈
      [(⟨"/r/c1", 0, true, 1⟩ : FileInfo),
       ⟨"/r/c1/c2", 0, true, 2⟩,
       ⟨"/r/c1/c2/c3", 0, true, 3⟩,
       ⟨"/r/c1/c2/c3/c4", 0, true, 4⟩,
       ⟨"/r/c1/c2/c3/c4/c5", 0, true, 5⟩,
       ⟨"/r/c1/c2/c3/c4/c5/c6", 0, true, 6⟩] := by
  constructor
  · simp [scan_directory, scanRecursive, scanEntries, scanChild, filterMatches]
  · simp

/-- C4 (amended): the scan never recurses past depth 5 (root at depth
0): a recursive call entered at depth greater than 5 returns its
accumulator unchanged, so the contents of a depth-6 directory produce
no records — but the depth-6 objects themselves, enumerated by the call
at depth 5, do produce records. -/
theorem C4_amended_no_descent_past_5 (dir : FsEntry) (p f : String)
    (files : List FileInfo) (depth : Nat) (h : depth > 5) :
    scanRecursive dir p f files depth 5 = files :=
  scanRecursive_depth_stop dir p f files depth 5 h

/-- C4 (amended) witness: a call at depth 6 on a readable, non-empty
directory adds nothing. -/
theorem C4_amended_witness :
    scanRecursive (FsEntry.dir "d" 0 true [FsEntry.file "a" 1 0]) "/d" "*" [] 6 5 = [] :=
  C4_amended_no_descent_past_5 _ _ _ _ _ (by decide)

/-! ## Structural lemmas: the scanner only appends records -/

mutual

/-- The function `scan_recursive` only appends to the accumulated record list. -/
theorem scanRecursive_extend (dir : FsEntry) (p f : String) (files : List FileInfo)
    (depth maxDepth : Nat) :
    ∃ rest, scanRecursive dir p f files depth maxDepth = files ++ rest := by
  rw [scanRecursive.eq_def]
  split
  · exact ⟨[], by simp⟩
  split
  · exact ⟨[], by simp⟩
  cases dir with
  | dir n m readable ch =>
    cases readable with
    | true => exact scanEntries_extend ch p f files depth maxDepth
    | false => exact ⟨[], by simp⟩
  | file n s m => exact ⟨[], by simp⟩
  | badMeta n => exact ⟨[], by simp⟩
  | iterErr => exact ⟨[], by simp⟩
termination_by (sizeOf dir, 0)

/-- The child loop only appends to the accumulated record list. -/
theorem scanEntries_extend (entries : List FsEntry) (p f : String) (files : List FileInfo)
    (depth maxDepth : Nat) :
    ∃ rest, scanEntries entries p f files depth maxDepth = files ++ rest := by
  cases entries with
  | nil => exact ⟨[], by rw [scanEntries]; simp⟩
  | cons e rest =>
    rw [scanEntries]
    obtain ⟨r1, h1⟩ := scanChild_extend e p f files depth maxDepth
    obtain ⟨r2, h2⟩ := scanEntries_extend rest p f
      (scanChild e p f files depth maxDepth) depth maxDepth
    exact ⟨r1 ++ r2, by rw [h2, h1, List.append_assoc]⟩
termination_by (sizeOf entries, 1)

/-- Processing one child only appends to the accumulated record list. -/
theorem scanChild_extend (e : FsEntry) (p f : String) (files : List FileInfo)
    (depth maxDepth : Nat) :
    ∃ rest, scanChild e p f files depth maxDepth = files ++ rest := by
  cases e with
  | iterErr => exact ⟨[], by rw [scanChild]; simp⟩
  | badMeta n => exact ⟨[], by rw [scanChild]; simp⟩
  | file n s m =>
    rw [scanChild]
    split
    · exact ⟨[⟨p ++ "/" ++ n, s, false, m⟩], rfl⟩
    · exact ⟨[], by simp⟩
  | dir n m readable ch =>
    rw [scanChild]
    obtain ⟨rest, h⟩ := scanRecursive_extend (.dir n m readable ch) (p ++ "/" ++ n) f
      (files ++ [⟨p ++ "/" ++ n, 0, true, m⟩]) (depth + 1) maxDepth
    exact ⟨⟨p ++ "/" ++ n, 0, true, m⟩ :: rest, by rw [h]; simp⟩
termination_by (sizeOf e, 1)

end

mutual

/-- Every directory record the scanner appends has `size = 0`:
`scan_recursive` preserves the invariant on the accumulator. -/
theorem scanRecursive_dir_size (dir : FsEntry) (p f : String) (files : List FileInfo)
    (depth maxDepth : Nat) (h : ∀ r ∈ files, r.is_dir = true → r.size = 0) :
    ∀ r ∈ scanRecursive dir p f files depth maxDepth, r.is_dir = true → r.size = 0 := by
  rw [scanRecursive.eq_def]
  split
  · exact h
  split
  · exact h
  cases dir with
  | dir n m readable ch =>
    cases readable with
    | true => exact scanEntries_dir_size ch p f files depth maxDepth h
    | false => exact h
  | file n s m => exact h
  | badMeta n => exact h
  | iterErr => exact h
termination_by (sizeOf dir, 0)

/-- The child loop preserves the directory-size invariant. -/
theorem scanEntries_dir_size (entries : List FsEntry) (p f : String) (files : List FileInfo)
    (depth maxDepth : Nat) (h : ∀ r ∈ files, r.is_dir = true → r.size = 0) :
    ∀ r ∈ scanEntries entries p f files depth maxDepth, r.is_dir = true → r.size = 0 := by
  cases entries with
  | nil => rw [scanEntries]; exact h
  | cons e rest =>
    rw [scanEntries]
    exact scanEntries_dir_size rest p f _ depth maxDepth
      (scanChild_dir_size e p f files depth maxDepth h)
termination_by (sizeOf entries, 1)

/-- Processing one child preserves the directory-size invariant. -/
theorem scanChild_dir_size (e : FsEntry) (p f : String) (files : List FileInfo)
    (depth maxDepth : Nat) (h : ∀ r ∈ files, r.is_dir = true → r.size = 0) :
    ∀ r ∈ scanChild e p f files depth maxDepth, r.is_dir = true → r.size = 0 := by
  cases e with
  | iterErr => rw [scanChild]; exact h
  | badMeta n => rw [scanChild]; exact h
  | file n s m =>
    rw [scanChild]
    split
    · intro r hr
      rcases List.mem_append.1 hr with hr | hr
      · exact h r hr
      · intro hdir
        simp at hr
        rw [hr] at hdir
        simp at hdir
    · exact h
  | dir n m readable ch =>
    rw [scanChild]
    apply scanRecursive_dir_size
    intro r hr
    rcases List.mem_append.1 hr with hr | hr
    · exact h r hr
    · intro _
      simp at hr
      rw [hr]
termination_by (sizeOf e, 1)

end

/-! ## C6 — directory children are recorded unconditionally -/

/-- C6: every directory record in a scan result has `size = 0` and
`is_dir = true` (first conjunct: any `is_dir` record of any result has
size 0), and for every directory child reached by the scan — i.e.
handed to the loop body, which only happens within the depth and count
caps — a record `⟨parent/name, 0, true, modified⟩` is emitted
unconditionally, for every filter, before whatever the recursion below
it appends (second conjunct). -/
theorem C6_dir_records (root : FsEntry) (p f : String) :
    (∀ l, scan_directory root p f = Except.ok l →
      ∀ r ∈ l, r.is_dir = true → r.size = 0) ∧
    (∀ (name : String) (m : Nat) (readable : Bool) (ch : List FsEntry)
        (acc : List FileInfo) (d md : Nat),
      ∃ rest, scanChild (FsEntry.dir name m readable ch) p f acc d md
        = acc ++ ⟨p ++ "/" ++ name, 0, true, m⟩ :: rest) := by
  constructor
  · intro l hl
    have : l = scanRecursive root p f [] 0 5 := by
      unfold scan_directory at hl
      exact (Except.ok.inj hl).symm
    rw [this]
    exact scanRecursive_dir_size root p f [] 0 5 (by simp)
  · intro name m readable ch acc d md
    rw [scanChild]
    obtain ⟨rest, h⟩ := scanRecursive_extend (.dir name m readable ch) (p ++ "/" ++ name) f
      (acc ++ [⟨p ++ "/" ++ name, 0, true, m⟩]) (d + 1) md
    exact ⟨rest, by rw [h]; simp⟩

/-- C6 witness: on a concrete tree with one subdirectory, the scan's
directory record has size 0 (first conjunct applied at a concrete
result, membership and `is_dir` discharged concretely), and processing
a concrete directory child emits its record in front (second conjunct
instantiated). -/
theorem C6_witness :
    (⟨"/r/d", 0, true, 3⟩ : FileInfo).size = 0 ∧
    ∃ rest, scanChild (FsEntry.dir "d" 3 true []) "/r" "*.txt" [] 0 5
      = ⟨"/r/d", 0, true, 3⟩ :: rest := by
  constructor
  · exact (C6_dir_records (FsEntry.dir "r" 0 true [FsEntry.dir "d" 3 true []]) "/r" "*").1
      [⟨"/r/d", 0, true, 3⟩]
      (by simp [scan_directory, scanRecursive, scanEntries, scanChild])
      ⟨"/r/d", 0, true, 3⟩ (by simp) rfl
  · obtain ⟨rest, h⟩ :=
      (C6_dir_records (FsEntry.dir "r" 0 true [FsEntry.dir "d" 3 true []]) "/r" "*.txt").2
        "d" 3 true [] [] 0 5
    exact ⟨rest, by rw [h]; rfl⟩

/-! ## C5 — the name-filter semantics -/

/-- C5 counterexample: the claim reads a pattern of the form `*.<ext>`
as matching exactly the files whose extension equals `<ext>` (here
`<ext> = "*.txt"`, which no extension — the part after a name's last
dot — can ever equal).  The code instead strips the leading `*.`
repeatedly (`trim_start_matches`), so the pattern `*.*.txt` matches
`foo.txt`, which the claim as stated rejects. -/
theorem C5_counterexample :
    filterMatches "*.*.txt" "foo.txt" = true ∧
    specMatches "*.*.txt" "foo.txt" = false := by
  constructor
  · decide
  · decide

/-- C5 (amended): `*` and `*.*` match every file; a pattern that starts
with `*.` (other than those two) matches exactly the files whose
extension equals, ASCII-case-insensitively, the pattern with all
leading `*.` occurrences removed (so `*.txt` matches `report.TXT`,
rejects `report.txt.bak` and extensionless files, and `*.*.txt` behaves
like `*.txt`); every pattern not starting with `*.` matches every
file. -/
theorem C5_amended_filter_semantics (filter fileName : String) :
    ((filter = "*" ∨ filter = "*.*") → filterMatches filter fileName = true) ∧
    (filter ≠ "*" → filter ≠ "*.*" → startsWithStarDot filter.toList = true →
      filterMatches filter fileName =
        (match extensionOf fileName with
         | some e => eqIgnoreAsciiCase e (String.mk (trimStarDot filter.toList))
         | none => false)) ∧
    (filter ≠ "*" → filter ≠ "*.*" → startsWithStarDot filter.toList = false →
      filterMatches filter fileName = true) ∧
    filterMatches "*.txt" "report.TXT" = true ∧
    filterMatches "*.txt" "report.txt.bak" = false ∧
    filterMatches "*.txt" "report" = false ∧
    filterMatches "*" "README" = true ∧
    filterMatches "*.*" "README" = true ∧
    filterMatches "*.*.txt" "a.txt" = true := by
  refine ⟨?_, ?_, ?_, by decide, by decide, by decide, by decide, by decide, by decide⟩
  · rintro (h | h) <;> simp [filterMatches, h]
  · intro h1 h2 h3
    unfold filterMatches
    rw [if_neg (by simp [h1, h2]), if_pos (by simpa [String.toList] using h3)]
  · intro h1 h2 h3
    unfold filterMatches
    rw [if_neg (by simp [h1, h2]), if_neg (by simp [show startsWithStarDot filter.data = false from by simpa [String.toList] using h3])]

/-- C5 (amended) witness: the three conditional branches applied at
concrete patterns. -/
theorem C5_amended_witness :
    filterMatches "*" "README" = true ∧
    filterMatches "*.md" "note.MD" =
      (match extensionOf "note.MD" with
       | some e => eqIgnoreAsciiCase e (String.mk (trimStarDot "*.md".toList))
       | none => false) ∧
    filterMatches "draft" "anything.bin" = true :=
  ⟨(C5_amended_filter_semantics "*" "README").1 (Or.inl rfl),
   ((C5_amended_filter_semantics "*.md" "note.MD").2.1 (by decide) (by decide) (by decide)),
   ((C5_amended_filter_semantics "draft" "anything.bin").2.2.1 (by decide) (by decide) (by decide))⟩

/-! ## C8 — aggregation -/

/-- C8: `file_count` counts exactly the records with `is_dir = false`,
`dir_count` exactly those with `is_dir = true`, and `total_size` sums
the sizes of the non-directory records only — appending a directory
record (even one with a non-zero `size` field) changes only
`dir_count`, appending a file record adds one to `file_count` and its
size to `total_size`; on 3 files of sizes 1024, 2048, 0 and 2
directories the aggregates are 3, 2, 3072. -/
theorem C8_aggregation (files : List FileInfo) (r : FileInfo) :
    file_count files = files.countP (fun f => f.is_dir = false) ∧
    dir_count files = files.countP (fun f => f.is_dir = true) ∧
    (r.is_dir = true →
      file_count (files ++ [r]) = file_count files ∧
      dir_count (files ++ [r]) = dir_count files + 1 ∧
      total_size (files ++ [r]) = total_size files) ∧
    (r.is_dir = false →
      file_count (files ++ [r]) = file_count files + 1 ∧
      dir_count (files ++ [r]) = dir_count files ∧
      total_size (files ++ [r]) = total_size files + r.size) ∧
    (file_count [⟨"a", 1024, false, 0⟩, ⟨"b", 2048, false, 0⟩, ⟨"c", 0, false, 0⟩,
        ⟨"d", 0, true, 0⟩, ⟨"e", 0, true, 0⟩] = 3 ∧
     dir_count [⟨"a", 1024, false, 0⟩, ⟨"b", 2048, false, 0⟩, ⟨"c", 0, false, 0⟩,
        ⟨"d", 0, true, 0⟩, ⟨"e", 0, true, 0⟩] = 2 ∧
     total_size [⟨"a", 1024, false, 0⟩, ⟨"b", 2048, false, 0⟩, ⟨"c", 0, false, 0⟩,
        ⟨"d", 0, true, 0⟩, ⟨"e", 0, true, 0⟩] = 3072) := by
  refine ⟨?_, ?_, ?_, ?_, by decide, by decide, by decide⟩
  · rw [file_count, List.countP_eq_length_filter]
    congr 1
    apply List.filter_congr
    intro x _
    cases h : x.is_dir <;> simp [h]
  · rw [dir_count, List.countP_eq_length_filter]
    congr 1
    apply List.filter_congr
    intro x _
    cases h : x.is_dir <;> simp [h]
  · intro h
    refine ⟨?_, ?_, ?_⟩ <;>
      simp [file_count, dir_count, total_size, List.filter_append, h]
  · intro h
    refine ⟨?_, ?_, ?_⟩ <;>
      simp [file_count, dir_count, total_size, List.filter_append, h]

/-- C8 witness: the conditional conjuncts applied at a concrete list, a
concrete directory record with a (deliberately) non-zero size field,
and a concrete file record. -/
theorem C8_witness :
    (file_count ([⟨"x", 7, false, 1⟩] ++ [⟨"d", 5, true, 2⟩]) = file_count [⟨"x", 7, false, 1⟩] ∧
     dir_count ([⟨"x", 7, false, 1⟩] ++ [⟨"d", 5, true, 2⟩]) = dir_count [⟨"x", 7, false, 1⟩] + 1 ∧
     total_size ([⟨"x", 7, false, 1⟩] ++ [⟨"d", 5, true, 2⟩]) = total_size [⟨"x", 7, false, 1⟩]) ∧
    (file_count ([⟨"x", 7, false, 1⟩] ++ [⟨"y", 9, false, 2⟩]) = file_count [⟨"x", 7, false, 1⟩] + 1 ∧
     dir_count ([⟨"x", 7, false, 1⟩] ++ [⟨"y", 9, false, 2⟩]) = dir_count [⟨"x", 7, false, 1⟩] ∧
     total_size ([⟨"x", 7, false, 1⟩] ++ [⟨"y", 9, false, 2⟩]) =
       total_size [⟨"x", 7, false, 1⟩] + (⟨"y", 9, false, 2⟩ : FileInfo).size) :=
  ⟨(C8_aggregation [⟨"x", 7, false, 1⟩] ⟨"d", 5, true, 2⟩).2.2.1 rfl,
   (C8_aggregation [⟨"x", 7, false, 1⟩] ⟨"y", 9, false, 2⟩).2.2.2.1 rfl⟩

/-! ## C10 — removal after a successful deletion -/

/-- C10: the deletion handler removes the first record whose path
equals the deleted path by exact string match — so when no earlier
record carries that path, `l1 ++ r :: l2` becomes `l1 ++ l2`: exactly
the matching record is removed and every other record keeps its place —
and when no record at all has that path the list is unchanged. -/
theorem C10_delete_exact_path (path : String) :
    (∀ files : List FileInfo, (∀ r ∈ files, r.path ≠ path) →
      fileDeleted files path = files) ∧
    (∀ (l1 l2 : List FileInfo) (r : FileInfo), r.path = path →
      (∀ r' ∈ l1, r'.path ≠ path) →
      fileDeleted (l1 ++ r :: l2) path = l1 ++ l2) := by
  constructor
  · intro files h
    unfold fileDeleted
    have hnone : files.findIdx? (fun x => x.path == path) = none :=
      List.findIdx?_eq_none_iff.2 (fun x hx => by simpa using h x hx)
    rw [hnone]
  · intro l1 l2 r hr h1
    unfold fileDeleted
    have hnone : l1.findIdx? (fun x => x.path == path) = none :=
      List.findIdx?_eq_none_iff.2 (fun x hx => by simpa using h1 x hx)
    have happ : (l1 ++ r :: l2).findIdx? (fun x => x.path == path) = some l1.length := by
      rw [List.findIdx?_append, hnone]
      simp [hr]
    rw [happ]
    simp only []
    rw [List.eraseIdx_append_of_length_le (Nat.le_refl _)]
    simp

/-- C10 witness: deleting path `q` from a concrete three-record list
removes exactly the middle record; deleting it from a list that does
not hold it changes nothing. -/
theorem C10_witness :
    fileDeleted [⟨"p1", 1, false, 0⟩, ⟨"q", 2, false, 0⟩, ⟨"p2", 3, false, 0⟩] "q"
      = [⟨"p1", 1, false, 0⟩, ⟨"p2", 3, false, 0⟩] ∧
    fileDeleted [⟨"p1", 1, false, 0⟩] "q" = [⟨"p1", 1, false, 0⟩] :=
  ⟨(C10_delete_exact_path "q").2 [⟨"p1", 1, false, 0⟩] [⟨"p2", 3, false, 0⟩]
      ⟨"q", 2, false, 0⟩ rfl (by decide),
   (C10_delete_exact_path "q").1 [⟨"p1", 1, false, 0⟩] (by decide)⟩

/-! ## C7 — sorting: order facts about the comparators -/

/-- The comparison `lexCmp` answers the opposite on swapped arguments. -/
theorem lexCmp_swap (a : List Char) : ∀ b, (lexCmp a b).swap = lexCmp b a := by
  induction a with
  | nil => intro b; cases b <;> rfl
  | cons x xs ih =>
    intro b
    cases b with
    | nil => rfl
    | cons y ys =>
      simp only [lexCmp]
      rcases Nat.lt_trichotomy x.toNat y.toNat with h | h | h
      · rw [Nat.compare_eq_lt.2 h, Nat.compare_eq_gt.2 h]
        rfl
      · rw [Nat.compare_eq_eq.2 h, Nat.compare_eq_eq.2 h.symm]
        exact ih ys
      · rw [Nat.compare_eq_gt.2 h, Nat.compare_eq_lt.2 h]
        rfl

/-- The relation "`lexCmp` does not answer `gt`" is transitive. -/
theorem lexCmp_le_trans : ∀ (a b c : List Char),
    lexCmp a b ≠ .gt → lexCmp b c ≠ .gt → lexCmp a c ≠ .gt := by
  intro a
  induction a with
  | nil =>
    intro b c _ _
    cases c <;> simp [lexCmp]
  | cons x xs ih =>
    intro b c h1 h2
    cases b with
    | nil => simp [lexCmp] at h1
    | cons y ys =>
      cases c with
      | nil => simp [lexCmp] at h2
      | cons z zs =>
        simp only [lexCmp] at h1 h2 ⊢
        cases hxy : compare x.toNat y.toNat with
        | gt => simp [hxy] at h1
        | lt =>
          cases hyz : compare y.toNat z.toNat with
          | gt => simp [hyz] at h2
          | lt =>
            rw [Nat.compare_eq_lt] at hxy hyz
            rw [Nat.compare_eq_lt.2 (Nat.lt_trans hxy hyz)]
            simp
          | eq =>
            rw [Nat.compare_eq_lt] at hxy
            rw [Nat.compare_eq_eq] at hyz
            rw [Nat.compare_eq_lt.2 (by omega)]
            simp
        | eq =>
          cases hyz : compare y.toNat z.toNat with
          | gt => simp [hyz] at h2
          | lt =>
            rw [Nat.compare_eq_eq] at hxy
            rw [Nat.compare_eq_lt] at hyz
            rw [Nat.compare_eq_lt.2 (by omega)]
            simp
          | eq =>
            have h1' := Nat.compare_eq_eq.1 hxy
            have h2' := Nat.compare_eq_eq.1 hyz
            rw [Nat.compare_eq_eq.2 (by omega)]
            rw [hxy] at h1
            rw [hyz] at h2
            exact ih ys zs h1 h2

/-- The relation "`lexCmp` does not answer `gt`" is total. -/
theorem lexCmp_le_total (a b : List Char) : lexCmp a b ≠ .gt ∨ lexCmp b a ≠ .gt := by
  cases h : lexCmp a b with
  | gt =>
    right
    rw [← lexCmp_swap a b, h]
    simp [Ordering.swap]
  | lt => left; simp [h]
  | eq => left; simp [h]

/-- For an `Ordering` value, the Boolean `o != gt` agrees with the
proposition `o ≠ gt`. -/
theorem ordering_bne_gt (o : Ordering) : ((o != Ordering.gt) = true) ↔ o ≠ Ordering.gt := by
  cases o <;> decide

/-- The predicate "the comparator does not answer `Greater`" — the
order `Vec::sort_by` establishes — is transitive for every method and
every lowercasing map. -/
theorem cmpFiles_le_trans (low : String → List Char) (m : SortMethod) (a b c : FileInfo)
    (h1 : (cmpFiles low m a b != Ordering.gt) = true)
    (h2 : (cmpFiles low m b c != Ordering.gt) = true) :
    (cmpFiles low m a c != Ordering.gt) = true := by
  rw [ordering_bne_gt] at h1 h2 ⊢
  cases m with
  | NameAZ =>
    simp only [cmpFiles] at h1 h2 ⊢
    exact lexCmp_le_trans _ _ _ h1 h2
  | NameZA =>
    simp only [cmpFiles] at h1 h2 ⊢
    exact lexCmp_le_trans _ _ _ h2 h1
  | SizeLargest =>
    simp only [cmpFiles, ne_eq, Nat.compare_eq_gt] at h1 h2 ⊢
    omega
  | SizeSmallest =>
    simp only [cmpFiles, ne_eq, Nat.compare_eq_gt] at h1 h2 ⊢
    omega
  | Newest =>
    simp only [cmpFiles, ne_eq, Nat.compare_eq_gt] at h1 h2 ⊢
    omega
  | Oldest =>
    simp only [cmpFiles, ne_eq, Nat.compare_eq_gt] at h1 h2 ⊢
    omega

/-- The predicate "the comparator does not answer `Greater`" is total
for every method and every lowercasing map. -/
theorem cmpFiles_le_total (low : String → List Char) (m : SortMethod) (a b : FileInfo) :
    ((cmpFiles low m a b != Ordering.gt) || (cmpFiles low m b a != Ordering.gt)) = true := by
  rw [Bool.or_eq_true, ordering_bne_gt, ordering_bne_gt]
  cases m with
  | NameAZ =>
    simp only [cmpFiles]
    exact lexCmp_le_total _ _
  | NameZA =>
    simp only [cmpFiles]
    exact (lexCmp_le_total _ _).symm
  | SizeLargest =>
    simp only [cmpFiles, ne_eq, Nat.compare_eq_gt]
    omega
  | SizeSmallest =>
    simp only [cmpFiles, ne_eq, Nat.compare_eq_gt]
    omega
  | Newest =>
    simp only [cmpFiles, ne_eq, Nat.compare_eq_gt]
    omega
  | Oldest =>
    simp only [cmpFiles, ne_eq, Nat.compare_eq_gt]
    omega

unseal List.merge List.mergeSort in
/-- C7: for every lowercasing map `low` — hence in particular for the
standard library's Unicode `to_lowercase` — `sort_files` permutes its
input and orders it by the selected method's comparator: name
ascending/descending is pairwise-ordered by code-point comparison of
the lower-cased path strings, size ascending/descending numerically by
the `size` field, modified ascending/descending numerically by the
`modified` field; and name-ascending on the ASCII paths `B/x`, `a/y` —
where Unicode lowercasing coincides with the ASCII restriction
`lowerChars` — yields `a/y`, `B/x`. -/
theorem C7_sort_files_spec (low : String → List Char) (files : List FileInfo) :
    (∀ method, (sort_files low files method).Perm files) ∧
    (sort_files low files .NameAZ).Pairwise
      (fun a b => lexCmp (low a.path) (low b.path) ≠ .gt) ∧
    (sort_files low files .NameZA).Pairwise
      (fun a b => lexCmp (low b.path) (low a.path) ≠ .gt) ∧
    (sort_files low files .SizeSmallest).Pairwise (fun a b => a.size ≤ b.size) ∧
    (sort_files low files .SizeLargest).Pairwise (fun a b => b.size ≤ a.size) ∧
    (sort_files low files .Oldest).Pairwise (fun a b => a.modified ≤ b.modified) ∧
    (sort_files low files .Newest).Pairwise (fun a b => b.modified ≤ a.modified) ∧
    sort_files lowerChars [⟨"B/x", 10, false, 3⟩, ⟨"a/y", 5, false, 4⟩] .NameAZ
      = [⟨"a/y", 5, false, 4⟩, ⟨"B/x", 10, false, 3⟩] := by
  refine ⟨fun method => List.mergeSort_perm files _, ?_, ?_, ?_, ?_, ?_, ?_, by rfl⟩
  · refine (List.sorted_mergeSort (cmpFiles_le_trans low .NameAZ) (cmpFiles_le_total low .NameAZ)
      files).imp ?_
    intro a b hab
    have h := (ordering_bne_gt _).1 hab
    simpa [cmpFiles] using h
  · refine (List.sorted_mergeSort (cmpFiles_le_trans low .NameZA) (cmpFiles_le_total low .NameZA)
      files).imp ?_
    intro a b hab
    have h := (ordering_bne_gt _).1 hab
    simpa [cmpFiles] using h
  · refine (List.sorted_mergeSort (cmpFiles_le_trans low .SizeSmallest)
      (cmpFiles_le_total low .SizeSmallest) files).imp ?_
    intro a b hab
    have h := (ordering_bne_gt _).1 hab
    simp only [cmpFiles, ne_eq, Nat.compare_eq_gt] at h
    omega
  · refine (List.sorted_mergeSort (cmpFiles_le_trans low .SizeLargest)
      (cmpFiles_le_total low .SizeLargest) files).imp ?_
    intro a b hab
    have h := (ordering_bne_gt _).1 hab
    simp only [cmpFiles, ne_eq, Nat.compare_eq_gt] at h
    omega
  · refine (List.sorted_mergeSort (cmpFiles_le_trans low .Oldest)
      (cmpFiles_le_total low .Oldest) files).imp ?_
    intro a b hab
    have h := (ordering_bne_gt _).1 hab
    simp only [cmpFiles, ne_eq, Nat.compare_eq_gt] at h
    omega
  · refine (List.sorted_mergeSort (cmpFiles_le_trans low .Newest)
      (cmpFiles_le_total low .Newest) files).imp ?_
    intro a b hab
    have h := (ordering_bne_gt _).1 hab
    simp only [cmpFiles, ne_eq, Nat.compare_eq_gt] at h
    omega


end DiskMaid

